import Mathlib

/-!
Verification of the kobo-db-tools correlated-analysis pipeline.

This file is a shallow embedding of `src/parser.rs` together with the model
types it uses (`src/model/session/reading_session.rs`, `src/model/correlated.rs`,
`src/model/app_event.rs`, `src/model/dictionary.rs`, `src/model/book.rs`,
`src/model/brightness/*`).  Modelling conventions:

* `chrono::DateTime<Utc>` timestamps are `Int` (seconds); `chrono::Duration`
  is an `Int` number of seconds, so `start - tolerance` and `end + tolerance`
  are plain integer arithmetic with no overflow concerns.
* `Uuid::new_v4()` (a fresh random identifier minted for each new
  `ReadingSession`) is modelled by a `Nat` counter threaded through the scan
  state; all that the code relies on is that each open event gets an id.
* The SQLite row stream is modelled by a `List RawEvent`: the query in
  `build_event_query` returns rows ordered by timestamp, and each row carries
  its `Id`, `Type`, `Timestamp` and the two JSON payload columns.  JSON
  decoding itself is performed by the external `serde_json` crate, so a raw
  event carries the *decode result* of each payload: `none` marks a payload
  whose JSON fails to deserialize into the expected shape (the case where
  `from_json` / `parse_optional_json_value` returns `Err`), `some p` a payload
  that decodes to `p`.  The one payload-level parse the repository performs
  itself — `attr.progress.parse::<u8>().unwrap_or(0)` on the progress string —
  is modelled concretely on `String` by `parseU8`.
* `rusqlite::Error::FromSqlConversionFailure(idx, Type::Text, e)` is modelled
  by `SqlError.FromSqlConversionFailure idx`; the wrapped boxed error is
  irrelevant to control flow.
* The `content`-table lookup `get_books_by_volume_id` queries an external
  database; the database content is abstracted as a function
  `dbBooks : String → Option Book` giving, per volume id, the book row (if
  any) that the query would return.  The function `get_books_by_volume_id`
  itself is embedded: it consults `dbBooks` only for the queried ids.
* Rust `HashMap`s that the code only ever reads through `get` are modelled as
  association lists (`books_from_events`, keyed by title, filled with
  `entry(..).or_insert_with`) or as functions (`app_start_counts_by_day`);
  the `HashSet` `volume_ids_to_query` is a duplicate-free list.
-/

deriving instance DecidableEq for Except

namespace KoboDb

/-- Model types mirror `src/model`. `ReadingSessionError` is from
`src/model/session/reading_session.rs`. -/
inductive ReadingSessionError where
  | InvalidEndTime
  | InvalidProgressValue
deriving Repr, DecidableEq

/-- `ParseError` from `src/parser.rs`. -/
inductive ParseError where
  | InvalidEventType
  | SessionCompletionFailed
  | DeserializationError
deriving Repr, DecidableEq

/-- Surrogate for `rusqlite::Error` as produced by `from_json` /
`parse_timestamp` / `parse_optional_json_value`: only the
`FromSqlConversionFailure` variant (with its column index) is ever built by
the embedded code. -/
inductive SqlError where
  | FromSqlConversionFailure (column_index : Nat)
deriving Repr, DecidableEq

/-- `ReadingSession` from `src/model/session/reading_session.rs`; `Uuid` is a
`Nat`, timestamps are `Int` seconds, `u8`/`u64` counters are `Nat`. -/
structure ReadingSession where
  id : Nat
  open_content_id : String
  leave_content_id : Option String
  time_start : Int
  time_end : Option Int
  volume_id : Option String
  start_progress : Nat
  end_progress : Option Nat
  book_title : Option String
  button_press_count : Option Nat
  seconds_read : Option Nat
  pages_turned : Option Nat
deriving Repr, DecidableEq

/-- `ReadingSession::new`.  The fresh `Uuid::new_v4()` is passed in as `id`. -/
def ReadingSession.new (id : Nat) (ts : Int) (start_progress : Nat)
    (book_title : Option String) (volume_id : Option String)
    (open_content_id : String) : ReadingSession :=
  { id := id
    time_start := ts
    time_end := none
    open_content_id := open_content_id
    leave_content_id := none
    volume_id := volume_id
    start_progress := start_progress
    end_progress := none
    book_title := book_title
    button_press_count := none
    seconds_read := none
    pages_turned := none }

/-- `ReadingSession::complete_session`: the two guard checks, then the field
updates.  The Rust method mutates `self` and returns `&mut Self`; here the
updated record is returned in the `ok` case and the receiver is untouched on
error (the Rust error paths return before any assignment). -/
def ReadingSession.complete_session (s : ReadingSession) (time_end : Int)
    (end_progress : Nat) (button_press_count seconds_read pages_turned : Nat)
    (leave_content_id : String) : Except ReadingSessionError ReadingSession :=
  if s.time_start > time_end then
    .error .InvalidEndTime
  else if end_progress > 100 ∨ s.start_progress > 100 ∨ end_progress < s.start_progress then
    .error .InvalidProgressValue
  else
    .ok { s with
      time_end := some time_end
      end_progress := some end_progress
      button_press_count := some button_press_count
      seconds_read := some seconds_read
      pages_turned := some pages_turned
      leave_content_id := some leave_content_id }

/-- `ReadingSession::is_complete`. -/
def ReadingSession.is_complete (s : ReadingSession) : Bool :=
  s.end_progress.isSome

/-- `DictionaryWord` from `src/model/dictionary.rs`. -/
structure DictionaryWord where
  term : String
  lang : String
  session_id : Option Nat
deriving Repr, DecidableEq

/-- `DictionaryWord::new`. -/
def DictionaryWord.new (term lang : String) (session_id : Option Nat) :
    DictionaryWord :=
  ⟨term, lang, session_id⟩

/-- `Brightness` from `src/model/brightness/brightness_value.rs` (re-exported
as `Brightness`): an adjustment method string and a `u8` level. -/
structure Brightness where
  method : String
  percentage : Nat
deriving Repr, DecidableEq

/-- `Brightness::new`. -/
def Brightness.new (method : String) (percentage : Nat) : Brightness :=
  ⟨method, percentage⟩

/-- `BrightnessEvent` from `src/model/brightness/brightness_event.rs`. -/
structure BrightnessEvent where
  brightness : Brightness
  timestamp : Int
deriving Repr, DecidableEq

/-- `BrightnessEvent::new`. -/
def BrightnessEvent.new (brightness : Brightness) (timestamp : Int) :
    BrightnessEvent :=
  ⟨brightness, timestamp⟩

/-- `AppEventKind` from `src/model/app_event.rs`. -/
inductive AppEventKind where
  | AppStart
  | PluggedIn
deriving Repr, DecidableEq

/-- `AppEvent` from `src/model/app_event.rs`; the decoded
`serde_json::Value` attributes payload is opaque to the pipeline, modelled as
a `String`. -/
structure AppEvent where
  kind : AppEventKind
  timestamp : Int
  attributes : Option String
deriving Repr, DecidableEq

/-- `AppEvent::new`. -/
def AppEvent.new (kind : AppEventKind) (timestamp : Int)
    (attributes : Option String) : AppEvent :=
  ⟨kind, timestamp, attributes⟩

/-- `Book` from `src/model/book.rs`. -/
structure Book where
  authors : String
  title : String
  size : Option Nat
  book_id : String
deriving Repr, DecidableEq

/-- `Book::new`. -/
def Book.new (authors title : String) (size : Option Nat) (book_id : String) :
    Book :=
  ⟨authors, title, size, book_id⟩

/-- `ReadingSessionAttributes` from `src/parser.rs` (the serde target for an
open/leave event's `Attributes` JSON): `progress` is a *string* in the
payload; `author` is serde-renamed from the payload field `attribution`. -/
structure ReadingSessionAttributes where
  progress : String
  volumeid : Option String
  title : Option String
  author : Option String
deriving Repr, DecidableEq

/-- `LeaveContentMetrics` from `src/parser.rs` (serde target for a leave
event's `Metrics` JSON); all three counters are required fields. -/
structure LeaveContentMetrics where
  button_press_count : Nat
  seconds_read : Nat
  pages_turned : Nat
deriving Repr, DecidableEq

/-- `LightAttributes` from `src/parser.rs`. -/
structure LightAttributes where
  method : String
deriving Repr, DecidableEq

/-- `LightMetrics` from `src/parser.rs` (`new_light` found under either alias
`NewNaturalLight` / `NewBrightness`). -/
structure LightMetrics where
  new_light : Nat
deriving Repr, DecidableEq

/-- `DictionaryAttributes` from `src/parser.rs`. -/
structure DictionaryAttributes where
  lang : String
  word : String
deriving Repr, DecidableEq

/-- `TimedDictionaryWord` from `src/parser.rs`. -/
structure TimedDictionaryWord where
  timestamp : Int
  word : DictionaryWord
deriving Repr, DecidableEq

/-- Digit-accumulation core of Rust's `str::parse::<u8>`: consume the whole
character list; `none` accumulator means no digit seen yet, and any non-digit
character is a parse error. -/
def digitsValue : List Char → Option Nat → Option Nat
  | [], acc => acc
  | c :: cs, acc =>
      if c.isDigit then
        digitsValue cs (some (acc.getD 0 * 10 + (c.toNat - 48)))
      else
        none

/-- Model of Rust `str::parse::<u8>()` on the progress string: an optional
leading `+`, then one or more ASCII digits, value at most 255; anything else
(empty string, sign alone, stray characters, overflow) is `none` (Rust
`Err`). -/
def parseU8 (s : String) : Option Nat :=
  let cs :=
    match s.toList with
    | '+' :: rest => rest
    | cs => cs
  match digitsValue cs none with
  | some v => if v ≤ 255 then some v else none
  | none => none

/-- The expression `attr.progress.parse::<u8>().unwrap_or(0)` from
`parse_events` / `parse_correlated`. -/
def parseU8OrZero (s : String) : Nat :=
  (parseU8 s).getD 0

/-- `from_json` from `src/parser.rs`: `serde_json::from_str` is external, so
its outcome arrives pre-computed as an `Option`; the `Err` case is mapped to
`rusqlite::Error::FromSqlConversionFailure(column_index, Text, e)`. -/
def from_json {α : Type} (decoded : Option α) (column_index : Nat) :
    Except SqlError α :=
  match decoded with
  | some v => .ok v
  | none => .error (.FromSqlConversionFailure column_index)

/-- One row of the `AnalyticsEvents` query, already split by its `Type` tag,
with each JSON payload replaced by its decode result (see the header
comment).  For `appStart` / `pluggedIn` the payload of
`parse_optional_json_value` is doubly optional: the outer `none` is a decode
failure, `some none` a NULL/blank attributes column. -/
inductive RawEvent where
  | openContent (event_id : String) (ts : Int)
      (attrs : Option ReadingSessionAttributes)
  | leaveContent (event_id : String) (ts : Int)
      (attrs : Option ReadingSessionAttributes)
      (metrics : Option LeaveContentMetrics)
  | dictionaryLookup (event_id : String) (ts : Int)
      (attrs : Option DictionaryAttributes)
  | brightnessAdjusted (event_id : String) (ts : Int)
      (attrs : Option LightAttributes) (metrics : Option LightMetrics)
  | naturalLightAdjusted (event_id : String) (ts : Int)
      (attrs : Option LightAttributes) (metrics : Option LightMetrics)
  | appStart (event_id : String) (ts : Int) (attrs : Option (Option String))
  | pluggedIn (event_id : String) (ts : Int) (attrs : Option (Option String))
deriving Repr, DecidableEq

/-- `handle_reading_session_event` from `src/parser.rs`.  The Rust function
takes `&mut Option<ReadingSession>`; here it returns the new value of
`current_session` together with the `Result`.  `freshId` stands for the
`Uuid::new_v4()` minted inside `ReadingSession::new` on the open path.
Note the Rust leave path `take()`s the current session *before* checking
`metrics`, so both error paths of the two `ok_or` calls leave
`current_session` at `None`; only a failed `complete_session` restores it. -/
def handle_reading_session_event (event_type event_id : String)
    (current_session : Option ReadingSession) (ts : Int) (progress : Nat)
    (attr : ReadingSessionAttributes) (metrics : Option LeaveContentMetrics)
    (freshId : Nat) :
    Option ReadingSession × Except ParseError (Option ReadingSession) :=
  match event_type with
  | "OpenContent" =>
      (some (ReadingSession.new freshId ts progress attr.title attr.volumeid
        event_id), .ok none)
  | "LeaveContent" =>
      match current_session, metrics with
      | none, _ => (none, .error .SessionCompletionFailed)
      | some _, none => (none, .error .SessionCompletionFailed)
      | some session, some m =>
          match session.complete_session ts progress m.button_press_count
              m.seconds_read m.pages_turned event_id with
          | .error _ => (some session, .error .SessionCompletionFailed)
          | .ok completed => (none, .ok (some completed))
  | _ => (current_session, .error .InvalidEventType)

/-- `on_dictionary_lookup` from `src/parser.rs`. -/
def on_dictionary_lookup (attrs : Option DictionaryAttributes)
    (session_id : Option Nat) : Except SqlError DictionaryWord := do
  let attr ← from_json attrs 1
  return DictionaryWord.new attr.word attr.lang session_id

/-- `on_light_adjusted` from `src/parser.rs`. -/
def on_light_adjusted (attrs : Option LightAttributes)
    (metrics : Option LightMetrics) (ts : Int) :
    Except SqlError BrightnessEvent := do
  let attributes ← from_json attrs 1
  let m ← from_json metrics 1
  return BrightnessEvent.new (Brightness.new attributes.method m.new_light) ts

/-- The mutable locals of the `parse_correlated` scan loop
(`src/parser.rs`, lines 250–257), plus the id counter standing in for
`Uuid::new_v4()` and the stream of per-event errors the loop reports via
`eprintln!` instead of aborting. -/
structure ScanState where
  nextId : Nat
  current_session : Option ReadingSession
  sessions : List ReadingSession
  dictionary_events : List TimedDictionaryWord
  brightness_events : List BrightnessEvent
  natural_light_events : List BrightnessEvent
  app_events : List AppEvent
  volume_ids_to_query : List String
  books_from_events : List (String × Book)
  reported_errors : List (String × ParseError)
deriving Repr, DecidableEq

/-- Initial scan state: all accumulators empty, no open session. -/
def initState : ScanState :=
  { nextId := 0
    current_session := none
    sessions := []
    dictionary_events := []
    brightness_events := []
    natural_light_events := []
    app_events := []
    volume_ids_to_query := []
    books_from_events := []
    reported_errors := [] }

/-- `HashSet::insert` on `volume_ids_to_query`, as a duplicate-free list. -/
def insertVolumeId (ids : List String) (vid : String) : List String :=
  if vid ∈ ids then ids else ids ++ [vid]

/-- `books_from_events.entry(title).or_insert_with(..)`: insert only when the
key is absent. -/
def entryOrInsert (m : List (String × Book)) (key : String) (b : Book) :
    List (String × Book) :=
  if m.any (fun kv => kv.1 = key) then m else m ++ [(key, b)]

/-- The `match (&attr.volumeid, &attr.title, &attr.author)` block shared by
`parse_events` and `parse_correlated`: synthesize a book from an event that
carries title and author but no volume id; queue a volume id that arrives
without a title for the batched lookup. -/
def registerBooks (st : ScanState) (attr : ReadingSessionAttributes) :
    ScanState :=
  match attr.volumeid, attr.title, attr.author with
  | none, some title, some author =>
      let b := Book.new author title none ""
      { st with books_from_events := entryOrInsert st.books_from_events title b }
  | some volume_id, none, _ =>
      { st with volume_ids_to_query :=
          insertVolumeId st.volume_ids_to_query volume_id }
  | _, _, _ => st

/-- The `match handle_reading_session_event(..)` result block of the scan
loop: an emitted session is pushed onto `sessions_vec`, `Ok(None)` does
nothing, and an `Err` is reported (the `eprintln!` arm) without stopping the
scan.  The id counter advances exactly when the open arm consumed a fresh
id. -/
def recordHandleResult (st : ScanState) (event_type event_id : String)
    (ts : Int) (progress : Nat) (attr : ReadingSessionAttributes)
    (metrics : Option LeaveContentMetrics) : ScanState :=
  let pair := handle_reading_session_event event_type event_id
    st.current_session ts progress attr metrics st.nextId
  let st := { st with
    current_session := pair.1
    nextId := if event_type = "OpenContent" then st.nextId + 1 else st.nextId }
  match pair.2 with
  | .ok (some session) => { st with sessions := st.sessions ++ [session] }
  | .ok none => st
  | .error e =>
      { st with reported_errors := st.reported_errors ++ [(event_id, e)] }

/-- One iteration of the `while let Some(row)` loop of `parse_correlated`
(`src/parser.rs`, lines 259–336).  Every `?` on a payload decode
(`from_json`, `parse_optional_json_value`, and the leave-metrics decode)
propagates a `SqlError` out of the whole function. -/
def processEvent (st : ScanState) (ev : RawEvent) :
    Except SqlError ScanState :=
  match ev with
  | .openContent event_id ts attrsRaw => do
      let attr ← from_json attrsRaw 1
      let progress := parseU8OrZero attr.progress
      let st := registerBooks st attr
      return recordHandleResult st "OpenContent" event_id ts progress attr none
  | .leaveContent event_id ts attrsRaw metricsRaw => do
      let attr ← from_json attrsRaw 1
      let progress := parseU8OrZero attr.progress
      let st := registerBooks st attr
      let m ← from_json metricsRaw 2
      return recordHandleResult st "LeaveContent" event_id ts progress attr
        (some m)
  | .dictionaryLookup _ ts attrsRaw => do
      let word ← on_dictionary_lookup attrsRaw none
      return { st with dictionary_events :=
          st.dictionary_events ++ [⟨ts, word⟩] }
  | .brightnessAdjusted _ ts attrsRaw metricsRaw => do
      let event ← on_light_adjusted attrsRaw metricsRaw ts
      return { st with brightness_events := st.brightness_events ++ [event] }
  | .naturalLightAdjusted _ ts attrsRaw metricsRaw => do
      let event ← on_light_adjusted attrsRaw metricsRaw ts
      return { st with natural_light_events :=
          st.natural_light_events ++ [event] }
  | .appStart _ ts attrsRaw => do
      let attributes ← from_json attrsRaw 1
      return { st with app_events :=
          st.app_events ++ [AppEvent.new .AppStart ts attributes] }
  | .pluggedIn _ ts attrsRaw => do
      let attributes ← from_json attrsRaw 1
      return { st with app_events :=
          st.app_events ++ [AppEvent.new .PluggedIn ts attributes] }

/-- The whole scan loop: fold `processEvent` over the row stream,
propagating the first fatal `SqlError`. -/
def processEvents (st : ScanState) : List RawEvent → Except SqlError ScanState
  | [] => .ok st
  | ev :: rest => do
      let st' ← processEvent st ev
      processEvents st' rest

/-- `CorrelatedSession` from `src/model/correlated.rs`. -/
structure CorrelatedSession where
  session : ReadingSession
  dictionary : List DictionaryWord
  brightness : List BrightnessEvent
  natural_light : List BrightnessEvent
  app_events : List AppEvent
deriving Repr, DecidableEq

/-- `CorrelatedSession::new`. -/
def CorrelatedSession.new (session : ReadingSession) : CorrelatedSession :=
  ⟨session, [], [], [], []⟩

/-- `OrphanEvents` from `src/model/correlated.rs`. -/
structure OrphanEvents where
  dictionary : List DictionaryWord
  brightness : List BrightnessEvent
  natural_light : List BrightnessEvent
  app_events : List AppEvent
deriving Repr, DecidableEq

/-- `ChargeCycleMetrics` from `src/model/correlated.rs`. -/
structure ChargeCycleMetrics where
  total_seconds_read : Nat
  total_pages : Nat
  total_button_presses : Nat
  dictionary_lookups : Nat
  brightness_events : Nat
  app_starts : Nat
deriving Repr, DecidableEq

/-- `ChargeCycle` from `src/model/correlated.rs`; the Rust field `end` is
named `endTime` here because `end` is reserved in Lean. -/
structure ChargeCycle where
  start : Int
  endTime : Option Int
  sessions : List CorrelatedSession
  app_events : List AppEvent
  metrics : ChargeCycleMetrics
deriving Repr, DecidableEq

/-- `const TOLERANCE_SECONDS: i64 = 30` in `parse_correlated`. -/
def TOLERANCE_SECONDS : Int := 30

/-- `session_contains` from `src/parser.rs`: an incomplete session matches
nothing; a completed one matches timestamps in the closed, tolerance-widened
interval. -/
def session_contains (session : ReadingSession) (ts : Int) (tolerance : Int) :
    Bool :=
  match session.time_end with
  | some e => decide (session.time_start - tolerance ≤ ts) && decide (ts ≤ e + tolerance)
  | none => false

/-- Rust `Iterator::position`: index of the first element satisfying the
predicate. -/
def position (p : α → Bool) : List α → Option Nat
  | [] => none
  | x :: xs => if p x then some 0 else (position p xs).map (· + 1)

/-- `find_session_index` from `src/parser.rs`. -/
def find_session_index (sessions : List CorrelatedSession) (ts : Int)
    (tolerance : Int) : Option Nat :=
  position (fun session => session_contains session.session ts tolerance)
    sessions

/-- In-place update of one list element (the Rust loops mutate
`correlated_sessions[index]` through an index). -/
def updateAt (f : α → α) : List α → Nat → List α
  | [], _ => []
  | x :: xs, 0 => f x :: xs
  | x :: xs, n + 1 => x :: updateAt f xs n

/-- The dictionary correlation loop of `parse_correlated` (lines 353–372):
each timed word is pushed — re-stamped with the owning session's id — onto
the first matching session, or onto the orphan list. -/
def assignDictionary (tolerance : Int) :
    List CorrelatedSession → List TimedDictionaryWord →
    List CorrelatedSession × List DictionaryWord
  | css, [] => (css, [])
  | css, timed :: rest =>
      match find_session_index css timed.timestamp tolerance with
      | some index =>
          let session_id := ((css.get? index).map (·.session.id)).getD 0
          let word := DictionaryWord.new timed.word.term timed.word.lang
            (some session_id)
          assignDictionary tolerance
            (updateAt (fun cs => { cs with dictionary := cs.dictionary ++ [word] })
              css index)
            rest
      | none =>
          let pair := assignDictionary tolerance css rest
          (pair.1, DictionaryWord.new timed.word.term timed.word.lang none
            :: pair.2)

/-- The three remaining correlation loops of `parse_correlated` (brightness,
natural light, app events) share this shape: push the event onto the first
matching session, or onto the orphan list. -/
def assignEvents (tolerance : Int) (eventTs : α → Int)
    (push : CorrelatedSession → α → CorrelatedSession) :
    List CorrelatedSession → List α → List CorrelatedSession × List α
  | css, [] => (css, [])
  | css, e :: rest =>
      match find_session_index css (eventTs e) tolerance with
      | some index =>
          assignEvents tolerance eventTs push
            (updateAt (fun cs => push cs e) css index) rest
      | none =>
          let pair := assignEvents tolerance eventTs push css rest
          (pair.1, e :: pair.2)

/-- `session_in_cycle` from `src/parser.rs`: placement is by the session's
start time in the half-open cycle interval (inclusive start, exclusive end;
the last cycle is unbounded). -/
def session_in_cycle (session : ReadingSession) (start : Int)
    (endTime : Option Int) : Bool :=
  match endTime with
  | some e => decide (session.time_start ≥ start) && decide (session.time_start < e)
  | none => decide (session.time_start ≥ start)

/-- `app_event_in_cycle` from `src/parser.rs`. -/
def app_event_in_cycle (event : AppEvent) (start : Int)
    (endTime : Option Int) : Bool :=
  match endTime with
  | some e => decide (event.timestamp ≥ start) && decide (event.timestamp < e)
  | none => decide (event.timestamp ≥ start)

/-- `compute_cycle_metrics` from `src/parser.rs`: pure sums and counts over
exactly the given sessions and app events. -/
def compute_cycle_metrics (sessions : List CorrelatedSession)
    (app_events : List AppEvent) : ChargeCycleMetrics :=
  { total_seconds_read :=
      (sessions.map (fun session => session.session.seconds_read.getD 0)).sum
    total_pages :=
      (sessions.map (fun session => session.session.pages_turned.getD 0)).sum
    total_button_presses :=
      (sessions.map (fun session => session.session.button_press_count.getD 0)).sum
    dictionary_lookups :=
      (sessions.map (fun session => session.dictionary.length)).sum
    brightness_events :=
      (sessions.map (fun session =>
        session.brightness.length + session.natural_light.length)).sum
    app_starts :=
      (app_events.filter (fun event => event.kind == AppEventKind.AppStart)).length }

/-- Stable insertion (strict `<`) used to model the stable
`plug_events.sort_by_key(|event| event.timestamp)`. -/
def insertPlug (e : AppEvent) : List AppEvent → List AppEvent
  | [] => [e]
  | x :: xs => if e.timestamp < x.timestamp then e :: x :: xs else x :: insertPlug e xs

/-- Stable sort of the plug events by timestamp. -/
def sortPlugEvents : List AppEvent → List AppEvent
  | [] => []
  | x :: xs => insertPlug x (sortPlugEvents xs)

/-- The `for (index, plug_event) in plug_events.iter().enumerate()` loop of
`build_charge_cycles`: one cycle per plug event; the cycle bound is the next
plug event's timestamp (`plug_events.get(index + 1)`), absent for the last. -/
def cyclesFromPlugs (sessions : List CorrelatedSession)
    (app_events : List AppEvent) : List AppEvent → List ChargeCycle
  | [] => []
  | plug :: rest =>
      let start := plug.timestamp
      let endTime := rest.head?.map (·.timestamp)
      let cycle_sessions := sessions.filter fun session =>
        session_in_cycle session.session start endTime
      let cycle_app_events := app_events.filter fun event =>
        app_event_in_cycle event start endTime
      { start := start
        endTime := endTime
        sessions := cycle_sessions
        app_events := cycle_app_events
        metrics := compute_cycle_metrics cycle_sessions cycle_app_events }
        :: cyclesFromPlugs sessions app_events rest

/-- `build_charge_cycles` from `src/parser.rs`. -/
def build_charge_cycles (sessions : List CorrelatedSession)
    (app_events : List AppEvent) : List ChargeCycle :=
  cyclesFromPlugs sessions app_events
    (sortPlugEvents
      (app_events.filter fun event => event.kind == AppEventKind.PluggedIn))

/-- `get_books_by_volume_id` from `src/parser.rs`, with the `content` table
abstracted as `dbBooks`: only the queried volume ids are present in the
returned map, each bound to the row the single-row query would yield. -/
def get_books_by_volume_id (dbBooks : String → Option Book)
    (volume_ids : List String) (key : String) : Option Book :=
  if key ∈ volume_ids then dbBooks key else none

/-- `books_from_db.extend(books_from_events)`: entries keyed by title from
the synthesized books override/extend the volume-id-keyed lookup map. -/
def booksAfterExtend (dbBooks : String → Option Book)
    (volume_ids : List String) (books_from_events : List (String × Book))
    (key : String) : Option Book :=
  match books_from_events.lookup key with
  | some b => some b
  | none => get_books_by_volume_id dbBooks volume_ids key

/-- One step of the title back-fill loop of `parse_correlated` (lines
341–347): when the session has a volume id that the merged book map
resolves, overwrite `book_title` with the looked-up title; otherwise leave
the session untouched. -/
def backfillTitle (books : String → Option Book) (session : ReadingSession) :
    ReadingSession :=
  match session.volume_id with
  | some volume_id =>
      match books volume_id with
      | some book => { session with book_title := some book.title }
      | none => session
  | none => session

/-- The whole back-fill loop, over `sessions_vec`. -/
def backfillTitles (books : String → Option Book) :
    List ReadingSession → List ReadingSession :=
  List.map (backfillTitle books)

/-- `chrono`'s `timestamp.date_naive()` on an epoch-seconds instant: the
calendar day index (floor division, matching calendar days for negative
instants too). -/
def dayOf (ts : Int) : Int := Int.fdiv ts 86400

/-- `*app_start_counts_by_day.entry(day).or_insert(0) += 1` on a
`HashMap` modelled as an association list: bump the day's count, inserting
the key on first sight. -/
def bumpDay : List (Int × Nat) → Int → List (Int × Nat)
  | [], day => [(day, 1)]
  | (k, v) :: rest, day =>
      if k = day then (k, v + 1) :: rest else (k, v) :: bumpDay rest day

/-- `CorrelatedAnalysis` from `src/model/correlated.rs`; the
`HashMap<NaiveDate, usize>` of app-start counts is an association list from
day index to count. -/
structure CorrelatedAnalysis where
  sessions : List CorrelatedSession
  orphans : OrphanEvents
  cycles : List ChargeCycle
  app_start_counts_by_day : List (Int × Nat)
deriving Repr, DecidableEq

/-- Everything `parse_correlated` does after the scan loop (lines 338–435 of
`src/parser.rs`), which is pure given the scan state and the abstracted
`content` table: back-fill titles, wrap into `CorrelatedSession`s, run the
four correlation loops, collect orphans, build charge cycles, and count app
starts per day. -/
def correlateAndSegment (dbBooks : String → Option Book) (st : ScanState) :
    CorrelatedAnalysis :=
  let tolerance := TOLERANCE_SECONDS
  let books := booksAfterExtend dbBooks st.volume_ids_to_query
    st.books_from_events
  let sessions := backfillTitles books st.sessions
  let correlated_sessions := sessions.map CorrelatedSession.new
  let afterDict := assignDictionary tolerance correlated_sessions
    st.dictionary_events
  let afterBright := assignEvents tolerance (fun e => e.timestamp)
    (fun cs e => { cs with brightness := cs.brightness ++ [e] })
    afterDict.1 st.brightness_events
  let afterNatural := assignEvents tolerance (fun e => e.timestamp)
    (fun cs e => { cs with natural_light := cs.natural_light ++ [e] })
    afterBright.1 st.natural_light_events
  let afterApp := assignEvents tolerance (fun e => e.timestamp)
    (fun cs e => { cs with app_events := cs.app_events ++ [e] })
    afterNatural.1 st.app_events
  let correlated_sessions := afterApp.1
  let orphans : OrphanEvents :=
    { dictionary := afterDict.2
      brightness := afterBright.2
      natural_light := afterNatural.2
      app_events := afterApp.2 }
  let all_app_events :=
    (correlated_sessions.map (fun session => session.app_events)).flatten
      ++ orphans.app_events
  let cycles := build_charge_cycles correlated_sessions all_app_events
  let app_start_counts_by_day :=
    ((all_app_events.filter fun event =>
        event.kind == AppEventKind.AppStart).map
      (fun event => dayOf event.timestamp)).foldl bumpDay []
  { sessions := correlated_sessions
    orphans := orphans
    cycles := cycles
    app_start_counts_by_day := app_start_counts_by_day }

/-- `Parser::parse_correlated` from `src/parser.rs`, after the row stream
(already filtered to the known event kinds and sorted ascending by
timestamp) and the `content` table have been abstracted: the scan loop,
whose payload-decode `?`s can abort the whole call, followed by the pure
correlation/segmentation tail. -/
def parse_correlated (events : List RawEvent)
    (dbBooks : String → Option Book) :
    Except SqlError CorrelatedAnalysis :=
  (processEvents initState events).map (correlateAndSegment dbBooks)

/-! Spec-side definitions: predicates written from the specification's words,
to be compared with the code-derived functions above. -/

/-- Eligibility of a session for an auxiliary event at time `t`, as the spec
words it: the session is completed (has an end time) and
`start - tolerance ≤ t ≤ end + tolerance` with the fixed 30-second
tolerance. -/
def specEligible (cs : CorrelatedSession) (t : Int) : Prop :=
  ∃ e, cs.session.time_end = some e ∧
    cs.session.time_start - TOLERANCE_SECONDS ≤ t ∧ t ≤ e + TOLERANCE_SECONDS

/-- The session invariant as the spec states it for output sessions: a
completed session with `time_end ≥ time_start`, both progress values in
`[0, 100]` with `start_progress ≤ end_progress`, and all three counters
present. -/
def SessionInvariant (s : ReadingSession) : Prop :=
  (∃ e, s.time_end = some e ∧ s.time_start ≤ e) ∧
  (∃ p, s.end_progress = some p ∧ s.start_progress ≤ p ∧ p ≤ 100) ∧
  s.start_progress ≤ 100 ∧
  s.button_press_count.isSome = true ∧
  s.seconds_read.isSome = true ∧
  s.pages_turned.isSome = true

/-- Classification of raw events whose payload decode fails (some required
`from_json` / `parse_optional_json_value` call returns `Err`): the events on
which the scan loop's `?` operators fire. -/
def payloadDecodeFails : RawEvent → Bool
  | .openContent _ _ attrs => attrs.isNone
  | .leaveContent _ _ attrs metrics => attrs.isNone || metrics.isNone
  | .dictionaryLookup _ _ attrs => attrs.isNone
  | .brightnessAdjusted _ _ attrs metrics => attrs.isNone || metrics.isNone
  | .naturalLightAdjusted _ _ attrs metrics => attrs.isNone || metrics.isNone
  | .appStart _ _ attrs => attrs.isNone
  | .pluggedIn _ _ attrs => attrs.isNone

/-! Concrete inputs used by counterexample and witness theorems. -/

/-- A dictionary-lookup event whose attributes JSON fails to decode. -/
def c1badEvent : RawEvent := .dictionaryLookup "bad" 0 none

/-- A well-formed open event at t = 600 with start progress "0". -/
def c1goodOpen : RawEvent :=
  .openContent "o1" 600 (some ⟨"0", none, none, none⟩)

/-- The matching well-formed leave event at t = 1200 with end progress "10"
and metrics (1 button press, 600 seconds, 5 pages). -/
def c1goodLeave : RawEvent :=
  .leaveContent "l1" 1200 (some ⟨"10", none, none, none⟩) (some ⟨1, 600, 5⟩)

/-- The session the pair `[c1goodOpen, c1goodLeave]` reconstructs. -/
def c1pairSession : ReadingSession :=
  { id := 0
    open_content_id := "o1"
    leave_content_id := some "l1"
    time_start := 600
    time_end := some 1200
    volume_id := none
    start_progress := 0
    end_progress := some 10
    book_title := none
    button_press_count := some 1
    seconds_read := some 600
    pages_turned := some 5 }

/-- The full analysis produced from `[c1goodOpen, c1goodLeave]` alone. -/
def c1pairAnalysis : CorrelatedAnalysis :=
  { sessions := [⟨c1pairSession, [], [], [], []⟩]
    orphans := ⟨[], [], [], []⟩
    cycles := []
    app_start_counts_by_day := [] }

/-- A completed session on `[0, 100]`, used by correlation witnesses. -/
def w2session : ReadingSession :=
  { c1pairSession with time_start := 0, time_end := some 100 }

/-- That session wrapped for correlation, with no auxiliary events yet. -/
def w2cs : CorrelatedSession := CorrelatedSession.new w2session

/-- A scan state holding one open (incomplete) session that started at
t = 100, used by the failed-completion witness. -/
def w3openSession : ReadingSession :=
  ReadingSession.new 7 100 20 none none "o3"

/-- The scan state with `w3openSession` as the current open session. -/
def w3state : ScanState := { initState with current_session := some w3openSession }

/-- A one-plug app-event list (plug at t = 1000, app start at t = 1500),
used by the charge-cycle witnesses. -/
def w6appEvents : List AppEvent :=
  [AppEvent.new .PluggedIn 1000 none, AppEvent.new .AppStart 1500 none]

/-- A correlated session starting inside the single cycle of
`w6appEvents`. -/
def w6cs : CorrelatedSession :=
  CorrelatedSession.new { c1pairSession with time_start := 1200, time_end := some 1300 }

/-- A correlated session starting before the earliest plug event of
`w6appEvents`, used by the C10 witness. -/
def w10cs : CorrelatedSession :=
  CorrelatedSession.new { c1pairSession with time_start := 500, time_end := some 800 }

/-- An app event with a timestamp before the earliest plug event of
`w6appEvents`. -/
def w10appEvent : AppEvent := AppEvent.new .AppStart 400 none

/-- `w6appEvents` plus the pre-plug app event, for the C10 witness. -/
def w10evs : List AppEvent := w6appEvents ++ [w10appEvent]

/-- The single cycle built from `[w10cs]` and `w10evs`: the pre-plug session
and app event land in no cycle. -/
def w10cycle : ChargeCycle :=
  { start := 1000
    endTime := none
    sessions := []
    app_events := w6appEvents
    metrics := ⟨0, 0, 0, 0, 0, 1⟩ }

/-- The single cycle built from `[w6cs]` and `w6appEvents`, for the C7
witness. -/
def w7cycle : ChargeCycle :=
  { start := 1000
    endTime := none
    sessions := [w6cs]
    app_events := w6appEvents
    metrics := ⟨600, 5, 1, 0, 0, 1⟩ }

/-! Helper lemmas. -/

/-- Book registration touches only the two book-collection fields. -/
theorem registerBooks_fields (st : ScanState)
    (attr : ReadingSessionAttributes) :
    (registerBooks st attr).current_session = st.current_session ∧
    (registerBooks st attr).sessions = st.sessions ∧
    (registerBooks st attr).reported_errors = st.reported_errors ∧
    (registerBooks st attr).nextId = st.nextId ∧
    (registerBooks st attr).dictionary_events = st.dictionary_events ∧
    (registerBooks st attr).brightness_events = st.brightness_events ∧
    (registerBooks st attr).natural_light_events = st.natural_light_events ∧
    (registerBooks st attr).app_events = st.app_events := by
  unfold registerBooks
  rcases attr with ⟨p, vid, title, author⟩
  rcases vid with _ | v <;> rcases title with _ | t <;> rcases author with _ | a <;>
    simp

/-- `complete_session` succeeds exactly when the end time is not before the
start and the progress checks pass; on success the updated fields are as
assigned. -/
theorem complete_session_ok (s : ReadingSession) (te : Int)
    (ep bp sr pt : Nat) (lid : String)
    (hte : s.time_start ≤ te) (hep : ep ≤ 100) (hsp : s.start_progress ≤ 100)
    (hmono : s.start_progress ≤ ep) :
    s.complete_session te ep bp sr pt lid = .ok { s with
      time_end := some te
      end_progress := some ep
      button_press_count := some bp
      seconds_read := some sr
      pages_turned := some pt
      leave_content_id := some lid } := by
  unfold ReadingSession.complete_session
  rw [if_neg (by omega), if_neg (by omega)]

/-- `complete_session` fails whenever one of the four invariant checks
fails. -/
theorem complete_session_error (s : ReadingSession) (te : Int)
    (ep bp sr pt : Nat) (lid : String)
    (h : te < s.time_start ∨ 100 < ep ∨ 100 < s.start_progress ∨
      ep < s.start_progress) :
    ∃ err, s.complete_session te ep bp sr pt lid = .error err := by
  unfold ReadingSession.complete_session
  by_cases h1 : s.time_start > te
  · rw [if_pos h1]; exact ⟨_, rfl⟩
  · rw [if_neg h1, if_pos (by omega)]; exact ⟨_, rfl⟩

/-- A session returned on the `ok` path of `complete_session` satisfies the
output invariant. -/
theorem complete_session_invariant (s s' : ReadingSession) (te : Int)
    (ep bp sr pt : Nat) (lid : String)
    (h : s.complete_session te ep bp sr pt lid = .ok s') :
    SessionInvariant s' := by
  unfold ReadingSession.complete_session at h
  by_cases h1 : s.time_start > te
  · rw [if_pos h1] at h; cases h
  · rw [if_neg h1] at h
    by_cases h2 : ep > 100 ∨ s.start_progress > 100 ∨ ep < s.start_progress
    · rw [if_pos h2] at h; cases h
    · rw [if_neg h2] at h
      cases h
      exact ⟨⟨te, rfl, show s.time_start ≤ te by omega⟩,
        ⟨ep, rfl, show s.start_progress ≤ ep by omega,
          show ep ≤ 100 by omega⟩,
        show s.start_progress ≤ 100 by omega, rfl, rfl, rfl⟩

/-- `position` returns `none` exactly when no element satisfies the
predicate. -/
theorem position_eq_none_iff {α : Type} (p : α → Bool) (l : List α) :
    position p l = none ↔ ∀ x ∈ l, p x = false := by
  induction l with
  | nil => simp [position]
  | cons x xs ih =>
      by_cases h : p x
      · simp [position, h]
      · simp [position, h, ih, Option.map_eq_none']

/-- `position` returns `some i` exactly when the element at `i` satisfies
the predicate and no earlier element does. -/
theorem position_eq_some_iff {α : Type} (p : α → Bool) (l : List α)
    (i : Nat) :
    position p l = some i ↔
      ∃ y, l[i]? = some y ∧ p y = true ∧ ∀ x ∈ l.take i, p x = false := by
  induction l generalizing i with
  | nil => simp [position]
  | cons x xs ih =>
      by_cases h : p x
      · cases i with
        | zero => simp [position, h]
        | succ j => simp [position, h]
      · cases i with
        | zero => simp [position, h, Option.map_eq_some']
        | succ j =>
            simp only [position, if_neg h, Option.map_eq_some',
              List.getElem?_cons_succ, List.take_succ_cons, List.mem_cons]
            constructor
            · rintro ⟨j', hj', hjj⟩
              obtain rfl : j' = j := by omega
              obtain ⟨y, hy, hpy, hall⟩ := (ih j').1 hj'
              exact ⟨y, hy, hpy, fun x hx => by
                rcases hx with rfl | hx
                · simpa using h
                · exact hall x hx⟩
            · rintro ⟨y, hy, hpy, hall⟩
              exact ⟨j, (ih j).2 ⟨y, hy, hpy, fun x hx => hall x (Or.inr hx)⟩,
                rfl⟩

/-- `session_contains` with the 30-second tolerance agrees with the spec's
eligibility predicate. -/
theorem session_contains_iff_specEligible (cs : CorrelatedSession)
    (t : Int) :
    session_contains cs.session t TOLERANCE_SECONDS = true ↔
      specEligible cs t := by
  unfold session_contains specEligible
  cases h : cs.session.time_end with
  | none => simp
  | some e =>
      simp only [Bool.and_eq_true, decide_eq_true_eq, Option.some.injEq]
      constructor
      · rintro ⟨h1, h2⟩; exact ⟨e, rfl, h1, h2⟩
      · rintro ⟨e', rfl, h1, h2⟩; exact ⟨h1, h2⟩

/-- Updating one position leaves a projection-level image unchanged when the
update preserves the projection. -/
theorem updateAt_map_eq {α β : Type} (g : α → β) (f : α → α)
    (hf : ∀ x, g (f x) = g x) :
    ∀ (l : List α) (i : Nat), (updateAt f l i).map g = l.map g := by
  intro l
  induction l with
  | nil => intro i; rfl
  | cons x xs ih =>
      intro i
      cases i with
      | zero => simp [updateAt, hf]
      | succ j => simp [updateAt, ih]

/-- The scan over an appended list runs the first part, then the second
from the resulting state. -/
theorem processEvents_append (l1 l2 : List RawEvent) (st : ScanState) :
    processEvents st (l1 ++ l2) =
      (processEvents st l1).bind (fun st' => processEvents st' l2) := by
  induction l1 generalizing st with
  | nil => rfl
  | cons ev rest ih =>
      show (processEvent st ev).bind (fun st' => processEvents st' (rest ++ l2)) =
        ((processEvent st ev).bind (fun st' => processEvents st' rest)).bind
          (fun st' => processEvents st' l2)
      cases processEvent st ev with
      | error err => rfl
      | ok st' => exact ih st'

/-- An event whose payload decode fails makes `processEvent` return the
propagated conversion error. -/
theorem processEvent_of_decode_fails (st : ScanState) (e : RawEvent)
    (h : payloadDecodeFails e = true) :
    ∃ err, processEvent st e = Except.error err := by
  cases e with
  | openContent id ts attrs =>
      cases attrs with
      | none => exact ⟨_, rfl⟩
      | some a => simp [payloadDecodeFails] at h
  | leaveContent id ts attrs metrics =>
      cases attrs with
      | none => exact ⟨_, rfl⟩
      | some a =>
          cases metrics with
          | none => exact ⟨_, rfl⟩
          | some m => simp [payloadDecodeFails] at h
  | dictionaryLookup id ts attrs =>
      cases attrs with
      | none => exact ⟨_, rfl⟩
      | some a => simp [payloadDecodeFails] at h
  | brightnessAdjusted id ts attrs metrics =>
      cases attrs with
      | none => exact ⟨_, rfl⟩
      | some a =>
          cases metrics with
          | none => exact ⟨_, rfl⟩
          | some m => simp [payloadDecodeFails] at h
  | naturalLightAdjusted id ts attrs metrics =>
      cases attrs with
      | none => exact ⟨_, rfl⟩
      | some a =>
          cases metrics with
          | none => exact ⟨_, rfl⟩
          | some m => simp [payloadDecodeFails] at h
  | appStart id ts attrs =>
      cases attrs with
      | none => exact ⟨_, rfl⟩
      | some a => simp [payloadDecodeFails] at h
  | pluggedIn id ts attrs =>
      cases attrs with
      | none => exact ⟨_, rfl⟩
      | some a => simp [payloadDecodeFails] at h

/-! Claim C1. -/

/-- C1 counterexample: a payload decode failure of a single event (here a
dictionary lookup whose attributes JSON fails to decode) makes
`parse_correlated` return an error for the whole parse, although the very
same subsequent well-formed open/leave pair alone yields one reconstructed
session — so the session reconstructible from the later events does not
appear in any result. -/
theorem c1_counterexample :
    parse_correlated [c1badEvent, c1goodOpen, c1goodLeave] (fun _ => none) =
      .error (SqlError.FromSqlConversionFailure 1) ∧
    parse_correlated [c1goodOpen, c1goodLeave] (fun _ => none) =
      .ok c1pairAnalysis :=
  ⟨by decide, by decide⟩

/-- C1 (amended): a payload decode failure (malformed or missing required
field in an event's attributes or metrics JSON) of any single event causes
the whole `parse_correlated` call to return an error — the scan aborts at
the offending event and no sessions at all (in particular none
reconstructible from later events) appear in a result.  Only sequence
errors are per-event and non-fatal. -/
theorem c1_decode_failure_aborts_parse (l1 l2 : List RawEvent)
    (e : RawEvent) (dbBooks : String → Option Book) (st : ScanState)
    (hpre : processEvents initState l1 = .ok st)
    (hfail : payloadDecodeFails e = true) :
    ∃ err, parse_correlated (l1 ++ e :: l2) dbBooks = .error err := by
  obtain ⟨err, herr⟩ := processEvent_of_decode_fails st e hfail
  refine ⟨err, ?_⟩
  unfold parse_correlated
  rw [processEvents_append, hpre]
  show ((processEvent st e).bind (fun st' => processEvents st' l2)).map
    (correlateAndSegment dbBooks) = _
  rw [herr]
  rfl

/-- C1 witness: the amended theorem applied at the concrete
counterexample input. -/
theorem c1_decode_failure_aborts_parse_witness :
    ∃ err, parse_correlated ([] ++ c1badEvent :: [c1goodOpen, c1goodLeave])
      (fun _ => none) = .error err :=
  c1_decode_failure_aborts_parse [] [c1goodOpen, c1goodLeave] c1badEvent
    (fun _ => none) initState (by rfl) (by rfl)

/-! Claim C2. -/

/-- C2: correlation assigns an auxiliary event at time `t` to the first
session in list order that is completed and whose tolerance-widened closed
interval `start - 30 ≤ t ≤ end + 30` contains `t` (ties resolve to the
session appearing earliest in the list, since everything before the chosen
index is ineligible); when no session in the list is eligible,
`find_session_index` returns `none` and the correlation loop routes the
event to the orphan bucket for its kind, otherwise it pushes the event onto
the matched session. -/
theorem c2_first_match_correlation (css : List CorrelatedSession) (t : Int) :
    (find_session_index css t TOLERANCE_SECONDS = none ↔
      ∀ cs ∈ css, ¬ specEligible cs t) ∧
    (∀ i, find_session_index css t TOLERANCE_SECONDS = some i ↔
      ∃ cs, css[i]? = some cs ∧ specEligible cs t ∧
        ∀ cs' ∈ css.take i, ¬ specEligible cs' t) ∧
    (∀ (α : Type) (eventTs : α → Int)
       (push : CorrelatedSession → α → CorrelatedSession) (e : α)
       (rest : List α) (i : Nat),
      (find_session_index css (eventTs e) TOLERANCE_SECONDS = some i →
        assignEvents TOLERANCE_SECONDS eventTs push css (e :: rest) =
          assignEvents TOLERANCE_SECONDS eventTs push
            (updateAt (fun cs => push cs e) css i) rest) ∧
      (find_session_index css (eventTs e) TOLERANCE_SECONDS = none →
        assignEvents TOLERANCE_SECONDS eventTs push css (e :: rest) =
          ((assignEvents TOLERANCE_SECONDS eventTs push css rest).1,
            e :: (assignEvents TOLERANCE_SECONDS eventTs push css rest).2))) := by
  refine ⟨?_, ?_, ?_⟩
  · rw [find_session_index, position_eq_none_iff]
    constructor
    · intro h cs hcs hel
      have htrue := (session_contains_iff_specEligible cs t).2 hel
      simp [h cs hcs] at htrue
    · intro h cs hcs
      have := h cs hcs
      rw [← session_contains_iff_specEligible cs t] at this
      simpa using this
  · intro i
    rw [find_session_index, position_eq_some_iff]
    constructor
    · rintro ⟨y, hy, hpy, hall⟩
      refine ⟨y, hy, (session_contains_iff_specEligible y t).1 hpy, ?_⟩
      intro cs' hcs' hel
      have := hall cs' hcs'
      rw [← session_contains_iff_specEligible cs' t] at hel
      simp [hel] at this
    · rintro ⟨y, hy, hel, hall⟩
      refine ⟨y, hy, (session_contains_iff_specEligible y t).2 hel, ?_⟩
      intro cs' hcs'
      have := hall cs' hcs'
      rw [← session_contains_iff_specEligible cs' t] at this
      simpa using this
  · intro α eventTs push e rest i
    constructor
    · intro h
      show (match find_session_index css (eventTs e) TOLERANCE_SECONDS with
        | some index =>
            assignEvents TOLERANCE_SECONDS eventTs push
              (updateAt (fun cs => push cs e) css index) rest
        | none =>
            ((assignEvents TOLERANCE_SECONDS eventTs push css rest).1,
              e :: (assignEvents TOLERANCE_SECONDS eventTs push css rest).2)) = _
      rw [h]
    · intro h
      show (match find_session_index css (eventTs e) TOLERANCE_SECONDS with
        | some index =>
            assignEvents TOLERANCE_SECONDS eventTs push
              (updateAt (fun cs => push cs e) css index) rest
        | none =>
            ((assignEvents TOLERANCE_SECONDS eventTs push css rest).1,
              e :: (assignEvents TOLERANCE_SECONDS eventTs push css rest).2)) = _
      rw [h]

/-- C2 witness: a session spanning `[0, 100]` matches an app event at
`t = 50`, giving index 0, and the correlation loop pushes the event onto
that session. -/
theorem c2_first_match_correlation_witness :
    find_session_index [w2cs] 50 TOLERANCE_SECONDS = some 0 ∧
    assignEvents TOLERANCE_SECONDS (fun e : AppEvent => e.timestamp)
        (fun cs e => { cs with app_events := cs.app_events ++ [e] })
        [w2cs] [AppEvent.new .AppStart 50 none] =
      assignEvents TOLERANCE_SECONDS (fun e : AppEvent => e.timestamp)
        (fun cs e => { cs with app_events := cs.app_events ++ [e] })
        (updateAt
          (fun cs => { cs with
            app_events := cs.app_events ++ [AppEvent.new .AppStart 50 none] })
          [w2cs] 0) [] :=
  ⟨by decide,
    ((c2_first_match_correlation [w2cs] 50).2.2 AppEvent
      (fun e => e.timestamp)
      (fun cs e => { cs with app_events := cs.app_events ++ [e] })
      (AppEvent.new .AppStart 50 none) [] 0).1 (by decide)⟩

/-! Claim C3. -/

/-- C3: a leave event processed while a session is open, whose completion
fails one of the four checks (end time before start, end progress over 100,
start progress over 100, or end progress below start progress), emits no
session, reports a `SessionCompletionFailed` error, and leaves the scan
with the very same still-open session — no end time, end progress, or
counters are acquired from the failed attempt. -/
theorem c3_failed_completion_reverts (st : ScanState) (event_id : String)
    (ts : Int) (attrs : ReadingSessionAttributes) (m : LeaveContentMetrics)
    (s : ReadingSession)
    (hcur : st.current_session = some s)
    (hfail : ts < s.time_start ∨ 100 < parseU8OrZero attrs.progress ∨
      100 < s.start_progress ∨ parseU8OrZero attrs.progress < s.start_progress) :
    ∃ st',
      processEvent st (.leaveContent event_id ts (some attrs) (some m)) =
        .ok st' ∧
      st'.current_session = some s ∧
      st'.sessions = st.sessions ∧
      st'.reported_errors = st.reported_errors ++
        [(event_id, ParseError.SessionCompletionFailed)] := by
  obtain ⟨err, herr⟩ := complete_session_error s ts (parseU8OrZero attrs.progress)
    m.button_press_count m.seconds_read m.pages_turned event_id hfail
  obtain ⟨hc, hs, he, hn, _, _, _, _⟩ := registerBooks_fields st attrs
  refine ⟨_, rfl, ?_⟩
  show (recordHandleResult (registerBooks st attrs) "LeaveContent" event_id ts
    (parseU8OrZero attrs.progress) attrs (some m)).current_session = some s ∧ _
  unfold recordHandleResult handle_reading_session_event
  rw [hc, hcur]
  simp only [herr, hs, he]
  exact ⟨trivial, trivial, trivial⟩

/-- C3 witness: concrete leave at t = 50 against a session opened at
t = 100 — completion fails on the time check and the open session is
restored unchanged. -/
theorem c3_failed_completion_reverts_witness :
    w3state.current_session = some w3openSession ∧
    ∃ st',
      processEvent w3state (.leaveContent "l3" 50 (some ⟨"30", none, none, none⟩)
        (some ⟨0, 0, 0⟩)) = .ok st' ∧
      st'.current_session = some w3openSession ∧
      st'.sessions = w3state.sessions ∧
      st'.reported_errors = w3state.reported_errors ++
        [("l3", ParseError.SessionCompletionFailed)] :=
  ⟨by decide,
    c3_failed_completion_reverts w3state "l3" 50 ⟨"30", none, none, none⟩
      ⟨0, 0, 0⟩ w3openSession (by decide) (Or.inl (by decide))⟩

/-- The open arm of the session state machine: unconditionally install a
fresh in-progress session and advance the id counter. -/
theorem recordHandleResult_open (st : ScanState) (event_id : String)
    (ts : Int) (progress : Nat) (attr : ReadingSessionAttributes) :
    recordHandleResult st "OpenContent" event_id ts progress attr none =
      { st with
        current_session := some (ReadingSession.new st.nextId ts progress
          attr.title attr.volumeid event_id)
        nextId := st.nextId + 1 } := rfl

/-- The leave arm when a session is open and completion succeeds: the
completed session is emitted and the scan state returns to "no open
session". -/
theorem recordHandleResult_leave_ok (st : ScanState) (event_id : String)
    (ts : Int) (progress : Nat) (attr : ReadingSessionAttributes)
    (m : LeaveContentMetrics) (s s' : ReadingSession)
    (hcur : st.current_session = some s)
    (hcomp : s.complete_session ts progress m.button_press_count
      m.seconds_read m.pages_turned event_id = .ok s') :
    recordHandleResult st "LeaveContent" event_id ts progress attr (some m) =
      { st with current_session := none, sessions := st.sessions ++ [s'] } := by
  simp only [recordHandleResult, handle_reading_session_event, hcur, hcomp]
  rfl

/-! Claim C4. -/

/-- C4: the post-scan back-fill maps every session through `backfillTitle`;
a session whose volume id has an entry in the merged book map gets that
entry's title, while every session from the synthesized path — which by
construction carries no volume id, its title having come with the event —
is left completely unchanged, so its event-supplied title takes
precedence. -/
theorem c4_backfill_titles (books : String → Option Book)
    (sessions : List ReadingSession) :
    backfillTitles books sessions = sessions.map (backfillTitle books) ∧
    (∀ (s : ReadingSession) (vid : String) (book : Book),
      s.volume_id = some vid → books vid = some book →
        backfillTitle books s = { s with book_title := some book.title }) ∧
    (∀ s : ReadingSession, s.volume_id = none → backfillTitle books s = s) := by
  refine ⟨rfl, ?_, ?_⟩
  · intro s vid book hvid hbook
    unfold backfillTitle
    simp only [hvid, hbook]
  · intro s hvid
    unfold backfillTitle
    simp only [hvid]

/-- C4 witness: a resolvable volume id gets the looked-up title; a
synthesized-path session (no volume id, event-supplied title) is
untouched. -/
theorem c4_backfill_titles_witness :
    ({ c1pairSession with volume_id := some "v1" } : ReadingSession).volume_id =
      some "v1" ∧
    (fun vid => if vid = "v1" then some (Book.new "a" "T" none "v1") else none)
      "v1" = some (Book.new "a" "T" none "v1") ∧
    backfillTitle
      (fun vid => if vid = "v1" then some (Book.new "a" "T" none "v1") else none)
      { c1pairSession with volume_id := some "v1" } =
      { c1pairSession with volume_id := some "v1", book_title := some "T" } ∧
    backfillTitle
      (fun vid => if vid = "v1" then some (Book.new "a" "T" none "v1") else none)
      { c1pairSession with book_title := some "event title" } =
      { c1pairSession with book_title := some "event title" } := by
  refine ⟨by decide, by decide, ?_, ?_⟩
  · exact (c4_backfill_titles
      (fun vid => if vid = "v1" then some (Book.new "a" "T" none "v1") else none)
      []).2.1 { c1pairSession with volume_id := some "v1" } "v1"
      (Book.new "a" "T" none "v1") (by decide) (by decide)
  · exact (c4_backfill_titles
      (fun vid => if vid = "v1" then some (Book.new "a" "T" none "v1") else none)
      []).2.2 { c1pairSession with book_title := some "event title" } (by decide)

/-! Claim C5. -/

/-- C5: from any scan state, a well-formed open→leave pair (open at `s`
with start progress `p0`, leave at `e ≥ s` with end progress `p1`,
`p0 ≤ p1 ≤ 100`, and full leave metrics) makes the reconstruction emit
exactly one completed session carrying exactly those values: start/end
times, both progress values, and the three counters from the leave
metrics. -/
theorem c5_wellformed_pair (st : ScanState) (oid lid : String) (s e : Int)
    (aO aL : ReadingSessionAttributes) (m : LeaveContentMetrics)
    (hse : s ≤ e)
    (hmono : parseU8OrZero aO.progress ≤ parseU8OrZero aL.progress)
    (hp1 : parseU8OrZero aL.progress ≤ 100) :
    ∃ st',
      processEvents st
        [.openContent oid s (some aO), .leaveContent lid e (some aL) (some m)] =
        .ok st' ∧
      st'.sessions = st.sessions ++ [{
        id := st.nextId
        open_content_id := oid
        leave_content_id := some lid
        time_start := s
        time_end := some e
        volume_id := aO.volumeid
        start_progress := parseU8OrZero aO.progress
        end_progress := some (parseU8OrZero aL.progress)
        book_title := aO.title
        button_press_count := some m.button_press_count
        seconds_read := some m.seconds_read
        pages_turned := some m.pages_turned }] ∧
      st'.current_session = none ∧
      st'.reported_errors = st.reported_errors := by
  obtain ⟨hcO, hsO, heO, hnO, _, _, _, _⟩ := registerBooks_fields st aO
  have hopen : processEvent st (.openContent oid s (some aO)) =
      .ok { registerBooks st aO with
        current_session := some (ReadingSession.new st.nextId s
          (parseU8OrZero aO.progress) aO.title aO.volumeid oid)
        nextId := st.nextId + 1 } := by
    show Except.ok (recordHandleResult (registerBooks st aO) "OpenContent" oid
      s (parseU8OrZero aO.progress) aO none) = _
    rw [recordHandleResult_open, hnO]
  set newS := ReadingSession.new st.nextId s (parseU8OrZero aO.progress)
    aO.title aO.volumeid oid with hnewS
  set st1 : ScanState := { registerBooks st aO with
    current_session := some newS, nextId := st.nextId + 1 } with hst1
  obtain ⟨hcL, hsL, heL, hnL, _, _, _, _⟩ := registerBooks_fields st1 aL
  have hcomplete :=
    complete_session_ok newS e (parseU8OrZero aL.progress)
      m.button_press_count m.seconds_read m.pages_turned lid hse hp1
      (show parseU8OrZero aO.progress ≤ 100 by omega) hmono
  have hrec := recordHandleResult_leave_ok (registerBooks st1 aL) lid e
    (parseU8OrZero aL.progress) aL m newS _
    (by rw [hcL, hst1]) hcomplete
  have hleave : processEvent st1 (.leaveContent lid e (some aL) (some m)) =
      .ok (recordHandleResult (registerBooks st1 aL) "LeaveContent" lid e
        (parseU8OrZero aL.progress) aL (some m)) := rfl
  have hchain : processEvents st
      [.openContent oid s (some aO), .leaveContent lid e (some aL) (some m)] =
      .ok (recordHandleResult (registerBooks st1 aL) "LeaveContent" lid e
        (parseU8OrZero aL.progress) aL (some m)) := by
    show (processEvent st (.openContent oid s (some aO))).bind
      (fun st' => processEvents st'
        [.leaveContent lid e (some aL) (some m)]) = _
    rw [hopen]
    show (processEvent st1 (.leaveContent lid e (some aL) (some m))).bind
      (fun st' => processEvents st' []) = _
    rw [hleave]
    rfl
  refine ⟨_, hchain, ?_, ?_, ?_⟩
  · rw [hrec]
    show (registerBooks st1 aL).sessions ++ [_] = _
    rw [hsL, hst1]
    show (registerBooks st aO).sessions ++ [_] = _
    rw [hsO]
    rfl
  · rw [hrec]
  · rw [hrec]
    show (registerBooks st1 aL).reported_errors = _
    rw [heL, hst1]
    show (registerBooks st aO).reported_errors = _
    rw [heO]

/-- C5 witness: the theorem applied to the concrete pair used throughout
this file (open at 600 with progress "0", leave at 1200 with progress "10"
and metrics (1, 600, 5)). -/
theorem c5_wellformed_pair_witness :
    ∃ st',
      processEvents initState
        [.openContent "o1" 600 (some ⟨"0", none, none, none⟩),
         .leaveContent "l1" 1200 (some ⟨"10", none, none, none⟩)
           (some ⟨1, 600, 5⟩)] = .ok st' ∧
      st'.sessions = initState.sessions ++ [{
        id := initState.nextId
        open_content_id := "o1"
        leave_content_id := some "l1"
        time_start := 600
        time_end := some 1200
        volume_id := none
        start_progress := parseU8OrZero "0"
        end_progress := some (parseU8OrZero "10")
        book_title := none
        button_press_count := some 1
        seconds_read := some 600
        pages_turned := some 5 }] ∧
      st'.current_session = none ∧
      st'.reported_errors = initState.reported_errors :=
  c5_wellformed_pair initState "o1" "l1" 600 1200 ⟨"0", none, none, none⟩
    ⟨"10", none, none, none⟩ ⟨1, 600, 5⟩ (by decide) (by decide) (by decide)

/-- Inserting into the plug-event sort is a permutation. -/
theorem insertPlug_perm (e : AppEvent) (l : List AppEvent) :
    (insertPlug e l).Perm (e :: l) := by
  induction l with
  | nil => exact List.Perm.refl _
  | cons x xs ih =>
      unfold insertPlug
      by_cases h : e.timestamp < x.timestamp
      · rw [if_pos h]
      · rw [if_neg h]
        exact (List.Perm.cons x ih).trans (List.Perm.swap e x xs)

/-- The plug-event sort is a permutation. -/
theorem sortPlugEvents_perm (l : List AppEvent) :
    (sortPlugEvents l).Perm l := by
  induction l with
  | nil => exact List.Perm.refl _
  | cons x xs ih =>
      exact (insertPlug_perm x (sortPlugEvents xs)).trans
        (List.Perm.cons x ih)

/-- Inserting into a timestamp-sorted list keeps it sorted. -/
theorem insertPlug_pairwise (e : AppEvent) (l : List AppEvent)
    (h : List.Pairwise (fun a b => a.timestamp ≤ b.timestamp) l) :
    List.Pairwise (fun a b => a.timestamp ≤ b.timestamp) (insertPlug e l) := by
  induction l with
  | nil => simp [insertPlug]
  | cons x xs ih =>
      rw [List.pairwise_cons] at h
      obtain ⟨hx, hxs⟩ := h
      unfold insertPlug
      by_cases hc : e.timestamp < x.timestamp
      · rw [if_pos hc]
        refine List.Pairwise.cons ?_ (List.Pairwise.cons hx hxs)
        intro b hb
        rw [List.mem_cons] at hb
        rcases hb with rfl | hb
        · omega
        · have := hx b hb; omega
      · rw [if_neg hc]
        refine List.Pairwise.cons ?_ (ih hxs)
        intro b hb
        have hb' := (insertPlug_perm e xs).mem_iff.1 hb
        rw [List.mem_cons] at hb'
        rcases hb' with rfl | hb'
        · omega
        · exact hx b hb'

/-- The plug-event sort produces an ascending-by-timestamp list. -/
theorem sortPlugEvents_pairwise (l : List AppEvent) :
    List.Pairwise (fun a b => a.timestamp ≤ b.timestamp) (sortPlugEvents l) := by
  induction l with
  | nil => simp [sortPlugEvents]
  | cons x xs ih => exact insertPlug_pairwise x (sortPlugEvents xs) ih

/-- One cycle is produced per plug event. -/
theorem cyclesFromPlugs_length (css : List CorrelatedSession)
    (evs : List AppEvent) (plugs : List AppEvent) :
    (cyclesFromPlugs css evs plugs).length = plugs.length := by
  induction plugs with
  | nil => rfl
  | cons q rest ih => simpa [cyclesFromPlugs] using ih

/-- The cycle at index `i` starts at the `i`-th plug event's timestamp,
ends at the `i+1`-st plug event's timestamp when one exists, and filters
the sessions and app events by its own interval. -/
theorem cyclesFromPlugs_getElem (css : List CorrelatedSession)
    (evs : List AppEvent) :
    ∀ (plugs : List AppEvent) (i : Nat) (p : AppEvent),
      plugs[i]? = some p →
      ∃ c, (cyclesFromPlugs css evs plugs)[i]? = some c ∧
        c.start = p.timestamp ∧
        c.endTime = (plugs[i + 1]?).map (fun q => q.timestamp) ∧
        c.sessions = css.filter (fun cs =>
          session_in_cycle cs.session c.start c.endTime) ∧
        c.app_events = evs.filter (fun a =>
          app_event_in_cycle a c.start c.endTime) ∧
        c.metrics = compute_cycle_metrics c.sessions c.app_events := by
  intro plugs
  induction plugs with
  | nil => intro i p h; simp at h
  | cons q rest ih =>
      intro i p h
      cases i with
      | zero =>
          rw [List.getElem?_cons_zero, Option.some.injEq] at h
          subst h
          simp only [cyclesFromPlugs]
          rw [List.getElem?_cons_zero]
          refine ⟨_, rfl, rfl, ?_, rfl, rfl, rfl⟩
          cases rest <;> simp
      | succ j =>
          rw [List.getElem?_cons_succ] at h
          obtain ⟨c, hc, h1, h2, h3, h4, h5⟩ := ih j p h
          refine ⟨c, ?_, h1, ?_, h3, h4, h5⟩
          · simpa [cyclesFromPlugs] using hc
          · simpa using h2

/-- Every produced cycle starts at some plug event's timestamp and holds
exactly the filtered sessions/app events together with the metrics computed
from them. -/
theorem cyclesFromPlugs_mem (css : List CorrelatedSession)
    (evs : List AppEvent) :
    ∀ (plugs : List AppEvent), ∀ c ∈ cyclesFromPlugs css evs plugs,
      (∃ plug ∈ plugs, c.start = plug.timestamp) ∧
      c.sessions = css.filter (fun cs =>
        session_in_cycle cs.session c.start c.endTime) ∧
      c.app_events = evs.filter (fun a =>
        app_event_in_cycle a c.start c.endTime) ∧
      c.metrics = compute_cycle_metrics c.sessions c.app_events := by
  intro plugs
  induction plugs with
  | nil => intro c hc; simp [cyclesFromPlugs] at hc
  | cons q rest ih =>
      intro c hc
      simp only [cyclesFromPlugs, List.mem_cons] at hc
      rcases hc with rfl | hc'
      · exact ⟨⟨q, List.mem_cons_self q rest, rfl⟩, rfl, rfl, rfl⟩
      · obtain ⟨⟨plug, hp, h1⟩, h2, h3, h4⟩ := ih c hc'
        exact ⟨⟨plug, List.mem_cons_of_mem q hp, h1⟩, h2, h3, h4⟩

/-- `session_in_cycle` unfolded to interval arithmetic: inclusive start,
exclusive end, unbounded when the cycle is the last one. -/
theorem session_in_cycle_iff (s : ReadingSession) (start : Int)
    (endTime : Option Int) :
    session_in_cycle s start endTime = true ↔
      start ≤ s.time_start ∧ ∀ b, endTime = some b → s.time_start < b := by
  unfold session_in_cycle
  cases endTime with
  | none => simp [ge_iff_le]
  | some b => simp [ge_iff_le]

/-- `app_event_in_cycle` unfolded to interval arithmetic. -/
theorem app_event_in_cycle_iff (a : AppEvent) (start : Int)
    (endTime : Option Int) :
    app_event_in_cycle a start endTime = true ↔
      start ≤ a.timestamp ∧ ∀ b, endTime = some b → a.timestamp < b := by
  unfold app_event_in_cycle
  cases endTime with
  | none => simp [ge_iff_le]
  | some b => simp [ge_iff_le]

/-! Claim C6. -/

/-- C6: charge-cycle segmentation sorts the plugged-in events ascending by
timestamp (a permutation of the plug filter), produces exactly one cycle
per plugged-in event, gives cycle `i` the half-open interval from plug `i`
to plug `i+1` (unbounded for the last), places a session in cycle `i` iff
its start time lies in that interval (inclusive start, exclusive end; end
time irrelevant), places app events by the same rule on their own
timestamp, and produces no cycles at all when there is no plugged-in
event. -/
theorem c6_charge_cycle_segmentation (css : List CorrelatedSession)
    (evs : List AppEvent) :
    List.Pairwise (fun a b => a.timestamp ≤ b.timestamp)
      (sortPlugEvents (evs.filter fun e => e.kind == AppEventKind.PluggedIn)) ∧
    (sortPlugEvents (evs.filter fun e => e.kind == AppEventKind.PluggedIn)).Perm
      (evs.filter fun e => e.kind == AppEventKind.PluggedIn) ∧
    (build_charge_cycles css evs).length =
      (evs.filter fun e => e.kind == AppEventKind.PluggedIn).length ∧
    (∀ (i : Nat) (p : AppEvent),
      (sortPlugEvents (evs.filter fun e =>
        e.kind == AppEventKind.PluggedIn))[i]? = some p →
      ∃ c, (build_charge_cycles css evs)[i]? = some c ∧
        c.start = p.timestamp ∧
        c.endTime = ((sortPlugEvents (evs.filter fun e =>
          e.kind == AppEventKind.PluggedIn))[i + 1]?).map
            (fun q => q.timestamp) ∧
        (∀ cs, cs ∈ c.sessions ↔ cs ∈ css ∧ c.start ≤ cs.session.time_start ∧
          ∀ b, c.endTime = some b → cs.session.time_start < b) ∧
        (∀ a, a ∈ c.app_events ↔ a ∈ evs ∧ c.start ≤ a.timestamp ∧
          ∀ b, c.endTime = some b → a.timestamp < b)) ∧
    ((evs.filter fun e => e.kind == AppEventKind.PluggedIn) = [] →
      build_charge_cycles css evs = []) := by
  refine ⟨sortPlugEvents_pairwise _, sortPlugEvents_perm _, ?_, ?_, ?_⟩
  · rw [build_charge_cycles, cyclesFromPlugs_length]
    exact (sortPlugEvents_perm _).length_eq
  · intro i p hp
    obtain ⟨c, hc, h1, h2, h3, h4, _⟩ :=
      cyclesFromPlugs_getElem css evs _ i p hp
    refine ⟨c, hc, h1, h2, ?_, ?_⟩
    · intro cs
      rw [h3, List.mem_filter, session_in_cycle_iff]
    · intro a
      rw [h4, List.mem_filter, app_event_in_cycle_iff]
  · intro h
    rw [build_charge_cycles, h]
    rfl

/-- C6 witness: one plug at t = 1000 gives exactly one cycle with the
expected unbounded interval and membership rule. -/
theorem c6_charge_cycle_segmentation_witness :
    ((sortPlugEvents (w6appEvents.filter fun e =>
      e.kind == AppEventKind.PluggedIn))[0]? =
        some (AppEvent.new .PluggedIn 1000 none)) ∧
    ∃ c, (build_charge_cycles [w6cs] w6appEvents)[0]? = some c ∧
      c.start = (AppEvent.new .PluggedIn 1000 none).timestamp ∧
      c.endTime = ((sortPlugEvents (w6appEvents.filter fun e =>
        e.kind == AppEventKind.PluggedIn))[0 + 1]?).map
          (fun q => q.timestamp) ∧
      (∀ cs, cs ∈ c.sessions ↔ cs ∈ [w6cs] ∧
        c.start ≤ cs.session.time_start ∧
        ∀ b, c.endTime = some b → cs.session.time_start < b) ∧
      (∀ a, a ∈ c.app_events ↔ a ∈ w6appEvents ∧ c.start ≤ a.timestamp ∧
        ∀ b, c.endTime = some b → a.timestamp < b) :=
  ⟨by decide,
    (c6_charge_cycle_segmentation [w6cs] w6appEvents).2.2.2.1 0
      (AppEvent.new .PluggedIn 1000 none) (by decide)⟩

/-! Claim C7. -/

/-- C7: every produced charge cycle's metrics are the sums/counts over
exactly the sessions and app events placed in that cycle: the three totals
are sums of the corresponding session fields with absent fields as zero,
dictionary lookups sum the cycle sessions' dictionary matches, brightness
events sum brightness plus natural-light matches, and app starts count the
cycle's app-start events. -/
theorem c7_cycle_metrics_over_own_members (css : List CorrelatedSession)
    (evs : List AppEvent) :
    ∀ c ∈ build_charge_cycles css evs,
      c.metrics.total_seconds_read =
        (c.sessions.map (fun cs => cs.session.seconds_read.getD 0)).sum ∧
      c.metrics.total_pages =
        (c.sessions.map (fun cs => cs.session.pages_turned.getD 0)).sum ∧
      c.metrics.total_button_presses =
        (c.sessions.map (fun cs => cs.session.button_press_count.getD 0)).sum ∧
      c.metrics.dictionary_lookups =
        (c.sessions.map (fun cs => cs.dictionary.length)).sum ∧
      c.metrics.brightness_events =
        (c.sessions.map (fun cs =>
          cs.brightness.length + cs.natural_light.length)).sum ∧
      c.metrics.app_starts =
        (c.app_events.filter (fun a => a.kind == AppEventKind.AppStart)).length := by
  intro c hc
  obtain ⟨_, _, _, hm⟩ := cyclesFromPlugs_mem css evs _ c hc
  rw [hm]
  exact ⟨rfl, rfl, rfl, rfl, rfl, rfl⟩

/-- C7 witness: the cycle built from one session and two app events has
metrics equal to the sums over its own members. -/
theorem c7_cycle_metrics_over_own_members_witness :
    w7cycle ∈ build_charge_cycles [w6cs] w6appEvents ∧
    w7cycle.metrics.total_seconds_read =
      (w7cycle.sessions.map (fun cs => cs.session.seconds_read.getD 0)).sum ∧
    w7cycle.metrics.total_pages =
      (w7cycle.sessions.map (fun cs => cs.session.pages_turned.getD 0)).sum ∧
    w7cycle.metrics.total_button_presses =
      (w7cycle.sessions.map (fun cs =>
        cs.session.button_press_count.getD 0)).sum ∧
    w7cycle.metrics.dictionary_lookups =
      (w7cycle.sessions.map (fun cs => cs.dictionary.length)).sum ∧
    w7cycle.metrics.brightness_events =
      (w7cycle.sessions.map (fun cs =>
        cs.brightness.length + cs.natural_light.length)).sum ∧
    w7cycle.metrics.app_starts =
      (w7cycle.app_events.filter
        (fun a => a.kind == AppEventKind.AppStart)).length :=
  ⟨by decide,
    c7_cycle_metrics_over_own_members [w6cs] w6appEvents w7cycle (by decide)⟩

/-! Claim C10. -/

/-- C10: a session whose start time precedes every plugged-in event's
timestamp appears in no cycle's session list, and an app event with a
timestamp before every plugged-in event appears in no cycle's app-event
list; the cycles of a successful `parse_correlated` are built *from* the
top-level session list (and the orphan app events), which itself is
unaffected by cycle placement. -/
theorem c10_pre_plug_uncycled (css : List CorrelatedSession)
    (evs : List AppEvent) (cs : CorrelatedSession) (a : AppEvent)
    (hcs : ∀ p ∈ evs, p.kind = AppEventKind.PluggedIn →
      cs.session.time_start < p.timestamp)
    (ha : ∀ p ∈ evs, p.kind = AppEventKind.PluggedIn →
      a.timestamp < p.timestamp) :
    (∀ c ∈ build_charge_cycles css evs, cs ∉ c.sessions) ∧
    (∀ c ∈ build_charge_cycles css evs, a ∉ c.app_events) ∧
    (∀ (events : List RawEvent) (dbBooks : String → Option Book)
       (analysis : CorrelatedAnalysis),
      parse_correlated events dbBooks = .ok analysis →
      analysis.cycles = build_charge_cycles analysis.sessions
        ((analysis.sessions.map (fun x => x.app_events)).flatten ++
          analysis.orphans.app_events)) := by
  have hstart : ∀ c ∈ build_charge_cycles css evs,
      ∃ p ∈ evs, p.kind = AppEventKind.PluggedIn ∧ c.start = p.timestamp := by
    intro c hc
    obtain ⟨⟨plug, hp, h1⟩, _, _, _⟩ := cyclesFromPlugs_mem css evs _ c hc
    have hp' := (sortPlugEvents_perm _).mem_iff.1 hp
    rw [List.mem_filter] at hp'
    exact ⟨plug, hp'.1, by simpa using hp'.2, h1⟩
  refine ⟨?_, ?_, ?_⟩
  · intro c hc hmem
    obtain ⟨p, hp, hkind, hcstart⟩ := hstart c hc
    obtain ⟨_, hsess, _, _⟩ := cyclesFromPlugs_mem css evs _ c hc
    rw [hsess, List.mem_filter, session_in_cycle_iff] at hmem
    have := hcs p hp hkind
    omega
  · intro c hc hmem
    obtain ⟨p, hp, hkind, hcstart⟩ := hstart c hc
    obtain ⟨_, _, happ, _⟩ := cyclesFromPlugs_mem css evs _ c hc
    rw [happ, List.mem_filter, app_event_in_cycle_iff] at hmem
    have := ha p hp hkind
    omega
  · intro events dbBooks analysis h
    unfold parse_correlated at h
    cases hev : processEvents initState events with
    | error err => rw [hev] at h; cases h
    | ok st =>
        rw [hev] at h
        simp only [Except.map] at h
        rw [Except.ok.injEq] at h
        subst h
        rfl

/-- C10 witness: with one plug at t = 1000, the session starting at 500 and
the app event at 400 land in no cycle. -/
theorem c10_pre_plug_uncycled_witness :
    build_charge_cycles [w10cs] w10evs = [w10cycle] ∧
    w10cs ∉ w10cycle.sessions ∧
    w10appEvent ∉ w10cycle.app_events :=
  ⟨by decide,
    (c10_pre_plug_uncycled [w10cs] w10evs w10cs w10appEvent (by decide)
      (by decide)).1 w10cycle (by decide),
    (c10_pre_plug_uncycled [w10cs] w10evs w10cs w10appEvent (by decide)
      (by decide)).2.1 w10cycle (by decide)⟩

/-- The state machine hands a session to the emit arm only after a
successful `complete_session`, so every emitted session satisfies the
output invariant. -/
theorem handle_emits_invariant (event_type event_id : String)
    (cur : Option ReadingSession) (ts : Int) (progress : Nat)
    (attr : ReadingSessionAttributes) (metrics : Option LeaveContentMetrics)
    (freshId : Nat) (session : ReadingSession)
    (h : (handle_reading_session_event event_type event_id cur ts progress
      attr metrics freshId).2 = .ok (some session)) :
    SessionInvariant session := by
  unfold handle_reading_session_event at h
  split at h
  · simp at h
  · split at h
    · simp at h
    · simp at h
    · rename_i session' m'
      split at h
      · simp at h
      · rename_i completed hcomp
        simp only [Except.ok.injEq, Option.some.injEq] at h
        subst h
        exact complete_session_invariant _ _ _ _ _ _ _ _ hcomp
  · simp at h

/-- `recordHandleResult` either leaves the session list unchanged or
appends the one session the state machine emitted. -/
theorem recordHandleResult_sessions_cases (st : ScanState)
    (event_type event_id : String) (ts : Int) (progress : Nat)
    (attr : ReadingSessionAttributes)
    (metrics : Option LeaveContentMetrics) :
    (recordHandleResult st event_type event_id ts progress attr
      metrics).sessions = st.sessions ∨
    ∃ session,
      (handle_reading_session_event event_type event_id st.current_session
        ts progress attr metrics st.nextId).2 = .ok (some session) ∧
      (recordHandleResult st event_type event_id ts progress attr
        metrics).sessions = st.sessions ++ [session] := by
  simp only [recordHandleResult]
  rcases hh : handle_reading_session_event event_type event_id
    st.current_session ts progress attr metrics st.nextId with ⟨cur', r⟩
  cases r with
  | error e => left; rfl
  | ok emitted =>
      cases emitted with
      | none => left; rfl
      | some session =>
          right
          exact ⟨session, rfl, rfl⟩

/-- One scan step either keeps the session list or appends a session
satisfying the output invariant. -/
theorem processEvent_sessions_shape (st st' : ScanState) (ev : RawEvent)
    (h : processEvent st ev = .ok st') :
    st'.sessions = st.sessions ∨
    ∃ session, SessionInvariant session ∧
      st'.sessions = st.sessions ++ [session] := by
  cases ev with
  | openContent id ts attrs =>
      cases attrs with
      | none => exact Except.noConfusion h
      | some a =>
          have h' : recordHandleResult (registerBooks st a) "OpenContent" id
              ts (parseU8OrZero a.progress) a none = st' := Except.ok.inj h
          subst h'
          rcases recordHandleResult_sessions_cases (registerBooks st a)
            "OpenContent" id ts (parseU8OrZero a.progress) a none with
            hcase | ⟨session, hem, hcase⟩
          · left; rw [hcase, (registerBooks_fields st a).2.1]
          · right
            exact ⟨session, handle_emits_invariant _ _ _ _ _ _ _ _ _ hem,
              by rw [hcase, (registerBooks_fields st a).2.1]⟩
  | leaveContent id ts attrs metrics =>
      cases attrs with
      | none => exact Except.noConfusion h
      | some a =>
          cases metrics with
          | none => exact Except.noConfusion h
          | some m =>
              have h' : recordHandleResult (registerBooks st a) "LeaveContent"
                  id ts (parseU8OrZero a.progress) a (some m) = st' :=
                Except.ok.inj h
              subst h'
              rcases recordHandleResult_sessions_cases (registerBooks st a)
                "LeaveContent" id ts (parseU8OrZero a.progress) a (some m) with
                hcase | ⟨session, hem, hcase⟩
              · left; rw [hcase, (registerBooks_fields st a).2.1]
              · right
                exact ⟨session, handle_emits_invariant _ _ _ _ _ _ _ _ _ hem,
                  by rw [hcase, (registerBooks_fields st a).2.1]⟩
  | dictionaryLookup id ts attrs =>
      cases attrs with
      | none => exact Except.noConfusion h
      | some a =>
          have h' : ({ st with dictionary_events := st.dictionary_events ++
              [⟨ts, DictionaryWord.new a.word a.lang none⟩] } : ScanState) =
              st' := Except.ok.inj h
          subst h'
          left; rfl
  | brightnessAdjusted id ts attrs metrics =>
      cases attrs with
      | none => exact Except.noConfusion h
      | some a =>
          cases metrics with
          | none => exact Except.noConfusion h
          | some m =>
              have h' : ({ st with brightness_events := st.brightness_events ++
                  [BrightnessEvent.new (Brightness.new a.method m.new_light)
                    ts] } : ScanState) = st' := Except.ok.inj h
              subst h'
              left; rfl
  | naturalLightAdjusted id ts attrs metrics =>
      cases attrs with
      | none => exact Except.noConfusion h
      | some a =>
          cases metrics with
          | none => exact Except.noConfusion h
          | some m =>
              have h' : ({ st with natural_light_events :=
                  st.natural_light_events ++
                  [BrightnessEvent.new (Brightness.new a.method m.new_light)
                    ts] } : ScanState) = st' := Except.ok.inj h
              subst h'
              left; rfl
  | appStart id ts attrs =>
      cases attrs with
      | none => exact Except.noConfusion h
      | some a =>
          have h' : ({ st with app_events := st.app_events ++
              [AppEvent.new .AppStart ts a] } : ScanState) = st' :=
            Except.ok.inj h
          subst h'
          left; rfl
  | pluggedIn id ts attrs =>
      cases attrs with
      | none => exact Except.noConfusion h
      | some a =>
          have h' : ({ st with app_events := st.app_events ++
              [AppEvent.new .PluggedIn ts a] } : ScanState) = st' :=
            Except.ok.inj h
          subst h'
          left; rfl

/-- Scanning preserves "every collected session satisfies the
invariant". -/
theorem processEvents_sessions_invariant (l : List RawEvent) :
    ∀ (st st' : ScanState), processEvents st l = .ok st' →
      (∀ s ∈ st.sessions, SessionInvariant s) →
      ∀ s ∈ st'.sessions, SessionInvariant s := by
  induction l with
  | nil =>
      intro st st' h hinv
      rw [show processEvents st [] = .ok st from rfl, Except.ok.injEq] at h
      subst h
      exact hinv
  | cons ev rest ih =>
      intro st st' h hinv
      have hbind : (processEvent st ev).bind
          (fun st1 => processEvents st1 rest) = .ok st' := h
      cases hev : processEvent st ev with
      | error err => rw [hev] at hbind; cases hbind
      | ok st1 =>
          rw [hev] at hbind
          refine ih st1 st' hbind ?_
          rcases processEvent_sessions_shape st st1 ev hev with
            hsame | ⟨session, hsinv, happ⟩
          · rw [hsame]; exact hinv
          · rw [happ]
            intro s hs
            rw [List.mem_append] at hs
            rcases hs with hs | hs
            · exact hinv s hs
            · rw [List.mem_singleton] at hs; subst hs; exact hsinv

/-- Title back-fill touches only `book_title`, so it preserves the session
invariant. -/
theorem backfillTitle_invariant (books : String → Option Book)
    (s : ReadingSession) (h : SessionInvariant s) :
    SessionInvariant (backfillTitle books s) := by
  unfold backfillTitle
  split
  · split
    · obtain ⟨⟨e, he, hte⟩, ⟨p, hp, hp1, hp2⟩, h3, h4, h5, h6⟩ := h
      exact ⟨⟨e, he, hte⟩, ⟨p, hp, hp1, hp2⟩, h3, h4, h5, h6⟩
    · exact h
  · exact h

/-- The generic correlation loop never changes the underlying
`ReadingSession`s, provided the push function does not. -/
theorem assignEvents_fst_sessions {α : Type} (tol : Int)
    (eventTs : α → Int) (push : CorrelatedSession → α → CorrelatedSession)
    (hpush : ∀ cs e, (push cs e).session = cs.session) :
    ∀ (l : List α) (css : List CorrelatedSession),
      ((assignEvents tol eventTs push css l).1).map (fun cs => cs.session) =
        css.map (fun cs => cs.session) := by
  intro l
  induction l with
  | nil => intro css; rfl
  | cons e rest ih =>
      intro css
      cases h : find_session_index css (eventTs e) tol with
      | some index =>
          simp only [assignEvents, h]
          rw [ih]
          apply updateAt_map_eq (fun cs : CorrelatedSession => cs.session)
          exact fun cs => hpush cs e
      | none =>
          simp only [assignEvents, h]
          exact ih css

/-- The dictionary correlation loop never changes the underlying
`ReadingSession`s. -/
theorem assignDictionary_fst_sessions (tol : Int) :
    ∀ (l : List TimedDictionaryWord) (css : List CorrelatedSession),
      ((assignDictionary tol css l).1).map (fun cs => cs.session) =
        css.map (fun cs => cs.session) := by
  intro l
  induction l with
  | nil => intro css; rfl
  | cons timed rest ih =>
      intro css
      cases h : find_session_index css timed.timestamp tol with
      | some index =>
          simp only [assignDictionary, h]
          rw [ih]
          apply updateAt_map_eq (fun cs : CorrelatedSession => cs.session)
          exact fun cs => rfl
      | none =>
          simp only [assignDictionary, h]
          exact ih css

/-- The sessions in the final analysis are exactly the back-filled scan
sessions (the correlation loops only attach auxiliary events). -/
theorem correlateAndSegment_sessions (dbBooks : String → Option Book)
    (st : ScanState) :
    ((correlateAndSegment dbBooks st).sessions).map (fun cs => cs.session) =
      backfillTitles (booksAfterExtend dbBooks st.volume_ids_to_query
        st.books_from_events) st.sessions := by
  simp only [correlateAndSegment]
  rw [assignEvents_fst_sessions TOLERANCE_SECONDS (fun e => e.timestamp)
      (fun cs e => { cs with app_events := cs.app_events ++ [e] })
      (fun cs e => rfl),
    assignEvents_fst_sessions TOLERANCE_SECONDS (fun e => e.timestamp)
      (fun cs e => { cs with natural_light := cs.natural_light ++ [e] })
      (fun cs e => rfl),
    assignEvents_fst_sessions TOLERANCE_SECONDS (fun e => e.timestamp)
      (fun cs e => { cs with brightness := cs.brightness ++ [e] })
      (fun cs e => rfl),
    assignDictionary_fst_sessions]
  rw [List.map_map]
  rw [show ((fun cs : CorrelatedSession => cs.session) ∘ CorrelatedSession.new) =
    (id : ReadingSession → ReadingSession) from rfl, List.map_id]

/-! Claim C8. -/

/-- C8: every session in the output session list of a successful
`parse_correlated` is completed and satisfies the session invariant —
`time_end` present and at least `time_start`, `end_progress` present with
`start_progress ≤ end_progress`, both progress values in `[0, 100]`, and
all three counters present. -/
theorem c8_output_sessions_invariant (events : List RawEvent)
    (dbBooks : String → Option Book) (analysis : CorrelatedAnalysis)
    (h : parse_correlated events dbBooks = .ok analysis) :
    ∀ cs ∈ analysis.sessions, SessionInvariant cs.session := by
  unfold parse_correlated at h
  cases hev : processEvents initState events with
  | error err => rw [hev] at h; cases h
  | ok st =>
      rw [hev] at h
      simp only [Except.map] at h
      rw [Except.ok.injEq] at h
      subst h
      have hscan : ∀ s ∈ st.sessions, SessionInvariant s :=
        processEvents_sessions_invariant events initState st hev
          (by intro s hs; simp [initState] at hs)
      intro cs hcs
      have hmem : cs.session ∈ ((correlateAndSegment dbBooks st).sessions).map
          (fun x => x.session) := List.mem_map_of_mem _ hcs
      rw [correlateAndSegment_sessions, backfillTitles] at hmem
      obtain ⟨s, hs, heq⟩ := List.mem_map.1 hmem
      rw [← heq]
      exact backfillTitle_invariant _ s (hscan s hs)

/-- C8 witness: the invariant holds for the one session of the concrete
open/leave run. -/
theorem c8_output_sessions_invariant_witness :
    parse_correlated [c1goodOpen, c1goodLeave] (fun _ => none) =
      .ok c1pairAnalysis ∧
    SessionInvariant c1pairSession :=
  ⟨by decide,
    c8_output_sessions_invariant [c1goodOpen, c1goodLeave] (fun _ => none)
      c1pairAnalysis (by decide) ⟨c1pairSession, [], [], [], []⟩ (by decide)⟩

/-! Claim C9. -/

/-- C9: an open or leave event whose attributes decode but whose progress
string does not parse as an 8-bit unsigned decimal is not a decode
failure: `unwrap_or(0)` yields progress 0 and the event is processed
normally — the open arm installs a session with `start_progress = 0`. -/
theorem c9_unparseable_progress_is_zero (st : ScanState)
    (event_id : String) (ts : Int) (attrs : ReadingSessionAttributes)
    (m : LeaveContentMetrics)
    (h : parseU8 attrs.progress = none) :
    parseU8OrZero attrs.progress = 0 ∧
    processEvent st (.openContent event_id ts (some attrs)) =
      .ok (recordHandleResult (registerBooks st attrs) "OpenContent" event_id
        ts 0 attrs none) ∧
    processEvent st (.leaveContent event_id ts (some attrs) (some m)) =
      .ok (recordHandleResult (registerBooks st attrs) "LeaveContent"
        event_id ts 0 attrs (some m)) ∧
    (recordHandleResult (registerBooks st attrs) "OpenContent" event_id ts 0
      attrs none).current_session =
      some (ReadingSession.new st.nextId ts 0 attrs.title attrs.volumeid
        event_id) := by
  have h0 : parseU8OrZero attrs.progress = 0 := by
    unfold parseU8OrZero
    rw [h]
    rfl
  refine ⟨h0, ?_, ?_, ?_⟩
  · show Except.ok (recordHandleResult (registerBooks st attrs) "OpenContent"
      event_id ts (parseU8OrZero attrs.progress) attrs none) = _
    rw [h0]
  · show Except.ok (recordHandleResult (registerBooks st attrs)
      "LeaveContent" event_id ts (parseU8OrZero attrs.progress) attrs
      (some m)) = _
    rw [h0]
  · rw [recordHandleResult_open]
    show some (ReadingSession.new (registerBooks st attrs).nextId ts 0
      attrs.title attrs.volumeid event_id) = _
    rw [(registerBooks_fields st attrs).2.2.2.1]

/-- C9 witness: the theorem applied to the unparseable progress string
`"abc"`. -/
theorem c9_unparseable_progress_is_zero_witness :
    parseU8 ("abc" : String) = none ∧
    parseU8OrZero ("abc" : String) = 0 ∧
    processEvent initState (.openContent "o9" 0
      (some ⟨"abc", none, none, none⟩)) =
      .ok (recordHandleResult (registerBooks initState
        ⟨"abc", none, none, none⟩) "OpenContent" "o9" 0 0
        ⟨"abc", none, none, none⟩ none) :=
  ⟨by decide, by decide,
    (c9_unparseable_progress_is_zero initState "o9" 0
      ⟨"abc", none, none, none⟩ ⟨0, 0, 0⟩ (by decide)).2.1⟩

end KoboDb
